import Mathlib

/-!
Shallow embedding of the davclient core (`src/dav.py`): the `DavCache`
TTL cache and the `DavClient` operations `stat`, `delete`, `move`,
`list_files` and `read`.

Modelling conventions:
* Strings (hrefs, names, response bodies) are byte strings, `List Nat`
  (one element per byte; `47` is the slash, `37` the percent sign).
* The Python `dict` backing `DavCache.cached` is an association list
  with unique keys by construction; `dget`, `dinsert` and `ddel` mirror
  `d.get(k)`, `d[k] = v` and `del d[k]` / delete-if-present.
* `time()` is an explicit `now : Int` argument, one per operation
  (each operation reads the clock as the source does, within one call
  the clock is treated as constant).
* The transport (`self.pool.request`) is modelled by passing the
  response the server would give to that request as an argument; each
  operation additionally reports whether it issued a request.
* The WebDAV-XML collaborator is modelled structurally: a multistatus
  body is a list of `DavEntry` records carrying exactly the fields the
  code reads (`{DAV:}href` text, `getcontentlength`, `getlastmodified`,
  whether `resourcetype` has child elements); `ET.tostring` /
  `ET.fromstring` of the single-entry fragment built in `list_files`
  round-trip to the singleton list.
-/

namespace Dav

/-- Byte strings: one `Nat` per byte. -/
abbrev Href := List Nat

/-! ### Percent encoding: `urllib.parse.quote` / `urllib.parse.unquote` -/

/-- Bytes left untouched by `urllib.parse.quote` with the default
`safe='/'`: ASCII letters, digits, `_`, `.`, `-`, `~` and `/`. -/
def isSafeByte (b : Nat) : Bool :=
  decide ((65 ≤ b ∧ b ≤ 90) ∨ (97 ≤ b ∧ b ≤ 122) ∨ (48 ≤ b ∧ b ≤ 57) ∨
    b = 95 ∨ b = 46 ∨ b = 45 ∨ b = 126 ∨ b = 47)

/-- Upper-case hex digit of a value `< 16`, as a byte. -/
def hexUpper (d : Nat) : Nat :=
  if d < 10 then 48 + d else 55 + d

/-- `urllib.parse.quote(s, safe='/')` on byte strings: every unsafe byte
becomes `%XX` with upper-case hex digits. -/
def pquote : Href → Href
  | [] => []
  | b :: rest =>
      (if isSafeByte b then [b] else [37, hexUpper (b / 16), hexUpper (b % 16)]) ++ pquote rest

/-- Hex digit recognizer (`0-9`, `A-F`, `a-f`), as CPython's unquote uses. -/
def isHexDigit (b : Nat) : Bool :=
  decide ((48 ≤ b ∧ b ≤ 57) ∨ (65 ≤ b ∧ b ≤ 70) ∨ (97 ≤ b ∧ b ≤ 102))

/-- Value of a hex digit byte. -/
def hexVal (b : Nat) : Nat :=
  if b ≤ 57 then b - 48 else if b ≤ 70 then b - 55 else b - 87

/-- `urllib.parse.unquote` on byte strings: a `%` followed by two hex
digits decodes to one byte; a `%` not followed by two hex digits is kept
literally (CPython keeps the malformed run unchanged). Strings of length
up to two are returned unchanged, as CPython does. -/
def punquote : Href → Href
  | [] => []
  | [c] => [c]
  | [c, d] => [c, d]
  | c :: d :: e :: rest =>
      if c = 37 ∧ isHexDigit d = true ∧ isHexDigit e = true then
        (16 * hexVal d + hexVal e) :: punquote rest
      else
        c :: punquote (d :: e :: rest)

/-! ### Slash handling: `replace('//','/')` loop, `split('/')`, `'/'.join` -/

/-- One pass of `href.replace('//', '/')`: left-to-right, non-overlapping. -/
def replaceDS : Href → Href
  | [] => []
  | [b] => [b]
  | b :: d :: rest =>
      if b = 47 ∧ d = 47 then 47 :: replaceDS rest
      else b :: replaceDS (d :: rest)

/-- `'//' in href`. -/
def hasDS : Href → Bool
  | [] => false
  | [_] => false
  | b :: d :: rest => if b = 47 ∧ d = 47 then true else hasDS (d :: rest)

/-- Fuelled form of the `while '//' in href:` loop of `_fixhref`; the
fuel `s.length` always suffices (each pass shortens the string, see
`hasDS_collapseSlashes`). -/
def collapseAux : Nat → Href → Href
  | 0, s => s
  | fuel + 1, s => if hasDS s then collapseAux fuel (replaceDS s) else s

/-- The `while '//' in href: href = href.replace('//', '/')` loop. -/
def collapseSlashes (s : Href) : Href :=
  collapseAux s.length s

/-- `href.split('/')` (Python semantics: `''.split('/') == ['']`). -/
def splitSlash : Href → List Href
  | [] => [[]]
  | c :: rest =>
      if c = 47 then [] :: splitSlash rest
      else
        match splitSlash rest with
        | [] => [[c]]
        | h :: t => (c :: h) :: t

/-- `'/'.join(parts)`. -/
def joinSlash : List Href → Href
  | [] => []
  | [p] => p
  | p :: q :: rest => p ++ 47 :: joinSlash (q :: rest)

/-- `s.split('/')[-1]`: the final slash-delimited segment. -/
def lastSegment (s : Href) : Href :=
  (splitSlash s).getLastD []

/-! ### Data model -/

/-- The `Props` named tuple. -/
structure Props where
  st_mode : Nat
  st_size : Nat
  st_nlink : Nat
  st_ctime : Int
  st_mtime : Int
  st_atime : Int
  st_blksize : Nat
  st_blocks : Nat
deriving DecidableEq

/-- One `{DAV:}response` element of a multistatus body, carrying exactly
the fields the code reads. -/
structure DavEntry where
  href : Href
  getcontentlength : Nat
  getlastmodified : Int
  resourcetypeNonEmpty : Bool
deriving DecidableEq

/-- A parsed multistatus body (`ET.fromstring` result, as the code
traverses it). -/
abbrev Multistatus := List DavEntry

/-- The `CacheItem` named tuple: `data is None` encodes a cached failure. -/
structure CacheItem where
  data : Option Multistatus
  expiration : Int
deriving DecidableEq

/-- `CacheItem.expired(self)`: `time() > self.expiration`. -/
def CacheItem.expired (it : CacheItem) (now : Int) : Bool :=
  decide (now > it.expiration)

/-- The `Dict[str, CacheItem]` backing the cache. -/
abbrev CacheMap := List (Href × CacheItem)

/-- `d.get(k)`: first binding for the key. -/
def dget : CacheMap → Href → Option CacheItem
  | [], _ => none
  | kv :: rest, k => if kv.1 = k then some kv.2 else dget rest k

/-- `del d[k]` (delete-if-present): removes the binding for the key. -/
def ddel : CacheMap → Href → CacheMap
  | [], _ => []
  | kv :: rest, k => if kv.1 = k then ddel rest k else kv :: ddel rest k

/-- `d[k] = v`: unconditional overwrite. -/
def dinsert (c : CacheMap) (k : Href) (v : CacheItem) : CacheMap :=
  (k, v) :: ddel c k

/-- `STATCACHEDURATION = 10`. -/
def STATCACHEDURATION : Int := 10

/-! ### DavCache -/

namespace DavCache

/-- `DavCache.insert`: stores `CacheItem(data, time() + expiration)`. -/
def insert (c : CacheMap) (href : Href) (data : Option Multistatus)
    (expiration : Int) (now : Int) : CacheMap :=
  dinsert c href ⟨data, now + expiration⟩

/-- `DavCache.get`: `none` in the first component models the raised
`KeyError` (absent, or present-but-expired, the latter deleting the
entry); `some d` is a hit returning `item.data`. -/
def get (c : CacheMap) (href : Href) (now : Int) :
    Option (Option Multistatus) × CacheMap :=
  match dget c href with
  | none => (none, c)
  | some item =>
      if ¬ item.expired now then (some item.data, c)
      else (none, ddel c href)

/-- `DavCache.remove_entry`: single-key removal, or removal of every
slash-prefix of the key in both trailing-slash conventions. -/
def remove_entry (c : CacheMap) (href : Href) (parents : Bool) : CacheMap :=
  if parents = false then ddel c href
  else
    let parts := splitSlash href
    (List.range parts.length).foldl
      (fun acc i =>
        let ph := joinSlash (parts.take (i + 1))
        ddel (ddel acc ph) (ph ++ [47]))
      c

end DavCache

/-- The set of keys `DavCache.remove_entry(href, parents=True)` removes:
every slash-prefix of the key, in both trailing-slash conventions. -/
def keyInvalidatedBy (h k : Href) : Bool :=
  (List.range (splitSlash h).length).any (fun i =>
    decide (k = joinSlash ((splitSlash h).take (i + 1)) ∨
      k = joinSlash ((splitSlash h).take (i + 1)) ++ [47]))

/-! ### Errors and status mapping -/

/-- errno `EACCES`. -/
def EACCES : Nat := 13

/-- errno `ENOENT`. -/
def ENOENT : Nat := 2

/-- `stat.S_IFDIR`. -/
def S_IFDIR : Nat := 0o040000

/-- `stat.S_IFREG`. -/
def S_IFREG : Nat := 0o100000

/-- The exceptions the module raises. -/
inductive DavError where
  /-- `FuseOSError(errno)`. -/
  | fuseOSError (errno : Nat)
  /-- The generic `Exception(f'Http returned {code}')`. -/
  | httpError (code : Nat)
  /-- `Exception('Invalid status')`, raised on a cached-failure hit. -/
  | invalidStatus
  /-- `IndexError` / `AttributeError` while traversing the multistatus. -/
  | parseError
deriving DecidableEq

namespace DavClient

/-- `DavClient._CODES` lookup followed by the fallback:
`403 -> FuseOSError(EACCES)`, `404 -> FuseOSError(ENOENT)`, anything
else the generic exception carrying the code. -/
def error_from_status_code (code : Nat) : DavError :=
  if code = 403 then .fuseOSError EACCES
  else if code = 404 then .fuseOSError ENOENT
  else .httpError code

/-- `DavClient._fixhref`: collapse doubled slashes, strip one trailing
slash, prepend the session base path, percent-quote. -/
def fixhref (base : Href) (href : Href) : Href :=
  let href := collapseSlashes href
  let href := if href.getLast? = some 47 then href.dropLast else href
  pquote (base ++ href)

/-- Derivation of a `Props` record from the first multistatus entry,
as `DavClient.stat` builds it after parsing. -/
def propsOfEntry (e : DavEntry) : Props :=
  let size := e.getcontentlength
  let st_mode := if e.resourcetypeNonEmpty then S_IFDIR ||| 0o500 else S_IFREG ||| 0o400
  { st_mode := st_mode
    st_size := size
    st_nlink := 1
    st_ctime := 0
    st_mtime := 0
    st_atime := 0
    st_blksize := 1024
    st_blocks := (size + 512 - 1) / 512 }

/-- The parsing step of `stat` (`root[0]` and the property lookups):
`root[0]` on an empty multistatus raises (`parseError`); otherwise the
`Props` are derived from the first entry. The `getlastmodified` value is
read by the source but not used. -/
def parseMultistatus (ms : Multistatus) : Except DavError Props :=
  match ms with
  | [] => .error .parseError
  | e :: _ =>
      let _m_time := e.getlastmodified
      .ok (propsOfEntry e)

/-- A PROPFIND response: status plus parsed multistatus body. -/
structure PropfindResp where
  status : Nat
  data : Multistatus
deriving DecidableEq

/-- A raw-body response (GET). -/
structure HttpResp where
  status : Nat
  body : List Nat
deriving DecidableEq

/-- Result of `stat`: updated cache, outcome, and whether a PROPFIND
request was issued. -/
structure StatOut where
  cache : CacheMap
  result : Except DavError Props
  issued : Bool

/-- `DavClient.stat`. `resp` is the response the transport would give
to the PROPFIND; it is consulted only on a cache miss. -/
def stat (base : Href) (c : CacheMap) (now : Int) (resp : PropfindResp)
    (href : Href) : StatOut :=
  let h := fixhref base href
  match DavCache.get c h now with
  | (some d, c') =>
      match d with
      | none => ⟨c', .error .invalidStatus, false⟩
      | some ms => ⟨c', parseMultistatus ms, false⟩
  | (none, c') =>
      if resp.status ≠ 207 then
        ⟨DavCache.insert c' h none STATCACHEDURATION now,
         .error (error_from_status_code resp.status), true⟩
      else
        ⟨DavCache.insert c' h (some resp.data) STATCACHEDURATION now,
         parseMultistatus resp.data, true⟩

/-- Result of `delete` / `move`: updated cache and the raised error, if
any. -/
structure MutOut where
  cache : CacheMap
  error : Option DavError

/-- `DavClient.delete`. `status` is the DELETE response status. -/
def delete (base : Href) (c : CacheMap) (status : Nat) (href : Href) : MutOut :=
  let h := fixhref base href
  if status ≠ 204 then ⟨c, some (error_from_status_code status)⟩
  else ⟨DavCache.remove_entry c h true, none⟩

/-- `DavClient.move`. `status` is the MOVE response status; the
normalized destination is sent in the `Destination` header and not
otherwise used. -/
def move (base : Href) (c : CacheMap) (status : Nat) (src dest : Href) : MutOut :=
  let s := fixhref base src
  let _d := fixhref base dest
  if status ≠ 201 then ⟨c, some (error_from_status_code status)⟩
  else ⟨DavCache.remove_entry c s true, none⟩

/-- Result of `list_files`: updated cache and the yielded names (the
generator fully consumed). -/
structure ListOut where
  cache : CacheMap
  result : Except DavError (List Href)

/-- `DavClient.list_files`. For every entry of the multistatus, a
single-entry fragment is cached under the entry's raw href; the yielded
name is the final segment of the percent-decoded href, skipped when
empty. -/
def list_files (base : Href) (c : CacheMap) (now : Int) (resp : PropfindResp)
    (href : Href) : ListOut :=
  let _h := fixhref base href
  if resp.status ≠ 207 then ⟨c, .error (error_from_status_code resp.status)⟩
  else
    let cache' := resp.data.foldl
      (fun acc e => DavCache.insert acc e.href (some [e]) STATCACHEDURATION now) c
    let names := resp.data.filterMap (fun e =>
      let nm := lastSegment (punquote e.href)
      if nm = [] then none else some nm)
    ⟨cache', .ok names⟩

/-- Result of `read`: updated cache, outcome, and the byte range of the
issued GET (`none` when the leading `stat` failed and no GET happened). -/
structure ReadOut where
  cache : CacheMap
  result : Except DavError (List Nat)
  rangeRequested : Option (Int × Int)

/-- `DavClient.read`: `stat` first, then a ranged GET whose `Range`
header is `bytes={start}-{end-1}` when `end < st_size` and
`bytes={start}-{st_size-1}` otherwise. -/
def read (base : Href) (c : CacheMap) (now : Int) (statResp : PropfindResp)
    (getResp : HttpResp) (href : Href) (start end_ : Int) : ReadOut :=
  let s := stat base c now statResp href
  match s.result with
  | .error e => ⟨s.cache, .error e, none⟩
  | .ok props =>
      let range :=
        if end_ < (props.st_size : Int) then (start, end_ - 1)
        else (start, (props.st_size : Int) - 1)
      if getResp.status ≠ 206 then
        ⟨s.cache, .error (error_from_status_code getResp.status), some range⟩
      else
        ⟨s.cache, .ok getResp.body, some range⟩

end DavClient

end Dav

deriving instance DecidableEq for Except

namespace Dav

/-! ### Lemmas about the byte-string helpers -/

/-- `unquote` keeps a trailing slash: a final `/` byte is never part of
a percent escape (`/` is not a hex digit). -/
theorem punquote_concat_slash (s : Href) : punquote (s ++ [47]) = punquote s ++ [47] := by
  induction s using punquote.induct with
  | case1 => decide
  | case2 c => simp [punquote]
  | case3 c d =>
      show punquote [c, d, 47] = [c, d] ++ [47]
      have h47 : isHexDigit 47 = false := by decide
      simp [punquote, h47]
  | case4 c d e rest h ih =>
      simp only [List.cons_append, punquote, if_pos h, List.append_eq, ih]
  | case5 c d e rest h ih =>
      simp only [List.cons_append, punquote, if_neg h, List.append_eq] at ih ⊢
      rw [ih]

/-- One replacement pass never lengthens the string. -/
theorem replaceDS_length_le (s : Href) : (replaceDS s).length ≤ s.length := by
  induction s using replaceDS.induct with
  | case1 => simp [replaceDS]
  | case2 b => simp [replaceDS]
  | case3 b d rest h ih =>
      simp only [replaceDS, if_pos h, List.length_cons]
      omega
  | case4 b d rest h ih =>
      simp only [replaceDS, if_neg h, List.length_cons] at ih ⊢
      omega

/-- One replacement pass strictly shortens a string containing `//`. -/
theorem replaceDS_length_lt (s : Href) (hds : hasDS s = true) :
    (replaceDS s).length < s.length := by
  induction s using replaceDS.induct with
  | case1 => simp [hasDS] at hds
  | case2 b => simp [hasDS] at hds
  | case3 b d rest h ih =>
      have hle := replaceDS_length_le rest
      simp only [replaceDS, if_pos h, List.length_cons]
      omega
  | case4 b d rest h ih =>
      have hd2 : hasDS (d :: rest) = true := by
        simpa [hasDS, if_neg h] using hds
      have := ih hd2
      simp only [replaceDS, if_neg h, List.length_cons] at this ⊢
      omega

/-- With fuel at least the string length, the replacement loop reaches a
fixed point with no `//` left (so `collapseSlashes` is a faithful model
of the unbounded `while` loop). -/
theorem hasDS_collapseAux (fuel : Nat) :
    ∀ s : Href, s.length ≤ fuel → hasDS (collapseAux fuel s) = false := by
  induction fuel with
  | zero =>
      intro s hs
      have h0 : s = [] := List.eq_nil_of_length_eq_zero (Nat.le_zero.mp hs)
      subst h0
      decide
  | succ n ih =>
      intro s hs
      simp only [collapseAux]
      by_cases h : hasDS s = true
      · rw [if_pos h]
        exact ih _ (by have := replaceDS_length_lt s h; omega)
      · rw [if_neg h]
        simpa using h

/-- The collapse loop terminates with no doubled slash remaining. -/
theorem hasDS_collapseSlashes (s : Href) : hasDS (collapseSlashes s) = false :=
  hasDS_collapseAux s.length s (Nat.le_refl _)

/-- `split('/')` never returns an empty list. -/
theorem splitSlash_ne_nil (s : Href) : splitSlash s ≠ [] := by
  cases s with
  | nil => simp [splitSlash]
  | cons c rest =>
      simp only [splitSlash]
      by_cases h : c = 47
      · simp [if_pos h]
      · rw [if_neg h]
        cases hs : splitSlash rest <;> simp

/-- Splitting a string with a trailing slash appends one empty segment. -/
theorem splitSlash_concat_slash (s : Href) :
    splitSlash (s ++ [47]) = splitSlash s ++ [[]] := by
  induction s with
  | nil => decide
  | cons c rest ih =>
      by_cases h : c = 47
      · simp [splitSlash, h, ih]
      · simp only [List.cons_append, splitSlash, if_neg h, List.append_eq]
        cases hs : splitSlash rest with
        | nil => exact absurd hs (splitSlash_ne_nil rest)
        | cons hd tl => rw [ih, hs]; simp

/-- `'/'.join(s.split('/')) == s`. -/
theorem joinSlash_splitSlash (s : Href) : joinSlash (splitSlash s) = s := by
  induction s with
  | nil => decide
  | cons c rest ih =>
      by_cases h : c = 47
      · subst h
        simp only [splitSlash, if_pos rfl]
        cases hs : splitSlash rest with
        | nil => exact absurd hs (splitSlash_ne_nil rest)
        | cons hd tl =>
            rw [hs] at ih
            show joinSlash ([] :: hd :: tl) = 47 :: rest
            simp only [joinSlash, List.nil_append]
            rw [ih]
      · simp only [splitSlash, if_neg h]
        cases hs : splitSlash rest with
        | nil => exact absurd hs (splitSlash_ne_nil rest)
        | cons hd tl =>
            rw [hs] at ih
            cases tl with
            | nil =>
                show joinSlash [c :: hd] = c :: rest
                simp only [joinSlash] at ih ⊢
                rw [ih]
            | cons q t =>
                show joinSlash ((c :: hd) :: q :: t) = c :: rest
                simp only [joinSlash] at ih ⊢
                rw [List.cons_append, ih]

/-- The last segment of a string ending in a slash is empty. -/
theorem lastSegment_concat_slash (s : Href) : lastSegment (s ++ [47]) = [] := by
  unfold lastSegment
  rw [splitSlash_concat_slash]
  exact List.getLastD_concat _ _ _

/-! ### Lemmas about the dictionary model -/

theorem dget_ddel (c : CacheMap) (j k : Href) :
    dget (ddel c j) k = if k = j then none else dget c k := by
  induction c with
  | nil => simp [ddel, dget]
  | cons kv rest ih =>
      by_cases h1 : kv.1 = j <;> by_cases h2 : kv.1 = k <;> by_cases h3 : k = j <;>
        simp_all [ddel, dget]

theorem dget_dinsert (c : CacheMap) (j k : Href) (v : CacheItem) :
    dget (dinsert c j v) k = if j = k then some v else dget c k := by
  unfold dinsert
  simp only [dget]
  by_cases h : j = k
  · simp [h]
  · rw [if_neg h, if_neg h, dget_ddel, if_neg (fun hh => h hh.symm)]

end Dav

namespace Dav

/-! ### Lemmas about cache prepopulation in `list_files` -/

/-- Folding the per-entry insertions of `list_files` leaves keys that no
entry carries untouched. -/
theorem dget_foldl_insert_of_not_mem (l : List DavEntry) (c : CacheMap) (k : Href)
    (now : Int) (h : ∀ e ∈ l, e.href ≠ k) :
    dget (l.foldl
      (fun acc e => DavCache.insert acc e.href (some [e]) STATCACHEDURATION now) c) k
      = dget c k := by
  induction l generalizing c with
  | nil => rfl
  | cons e rest ih =>
      simp only [List.foldl_cons]
      rw [ih _ (fun e' he' => h e' (List.mem_cons_of_mem _ he'))]
      unfold DavCache.insert
      rw [dget_dinsert, if_neg (h e (List.mem_cons_self _ _))]

/-- Every key carried by some entry of the listing ends up bound to a
fresh positive item with the standard TTL. -/
theorem dget_foldl_insert_of_mem (l : List DavEntry) (c : CacheMap) (k : Href)
    (now : Int) (h : ∃ e ∈ l, e.href = k) :
    ∃ ms, dget (l.foldl
      (fun acc e => DavCache.insert acc e.href (some [e]) STATCACHEDURATION now) c) k
      = some ⟨some ms, now + STATCACHEDURATION⟩ := by
  induction l generalizing c with
  | nil =>
      obtain ⟨e, he, _⟩ := h
      exact absurd he (List.not_mem_nil e)
  | cons e rest ih =>
      simp only [List.foldl_cons]
      by_cases hr : ∃ e' ∈ rest, e'.href = k
      · exact ih _ hr
      · obtain ⟨e0, he0, hk⟩ := h
        have he : e0 = e := by
          rcases List.mem_cons.mp he0 with h1 | h1
          · exact h1
          · exact absurd ⟨e0, h1, hk⟩ hr
        subst he
        refine ⟨[e0], ?_⟩
        rw [dget_foldl_insert_of_not_mem rest _ k now
          (fun e' h1 h2 => hr ⟨e', h1, h2⟩)]
        unfold DavCache.insert
        rw [dget_dinsert, if_pos hk]

/-! ### Lemmas about hierarchical invalidation -/

/-- The double-deletion fold of `remove_entry(..., parents=True)`,
characterized: a key is gone exactly when one of the visited prefixes
matches it, with or without a trailing slash. -/
theorem dget_foldl_ddel_pair (l : List Nat) (parts : List Href) (c : CacheMap) (k : Href) :
    dget (l.foldl
      (fun acc i =>
        let ph := joinSlash (parts.take (i + 1))
        ddel (ddel acc ph) (ph ++ [47])) c) k
      = if l.any (fun i =>
          decide (k = joinSlash (parts.take (i + 1)) ∨
            k = joinSlash (parts.take (i + 1)) ++ [47])) = true
        then none else dget c k := by
  induction l generalizing c with
  | nil => simp
  | cons i rest ih =>
      simp only [List.foldl_cons, List.any_cons, ih]
      by_cases hrest : rest.any (fun i =>
          decide (k = joinSlash (parts.take (i + 1)) ∨
            k = joinSlash (parts.take (i + 1)) ++ [47])) = true
      · rw [if_pos hrest, if_pos (by rw [hrest]; exact Bool.or_true _)]
      · have hrf : rest.any (fun i =>
            decide (k = joinSlash (parts.take (i + 1)) ∨
              k = joinSlash (parts.take (i + 1)) ++ [47])) = false := by
          revert hrest
          cases rest.any (fun i =>
              decide (k = joinSlash (parts.take (i + 1)) ∨
                k = joinSlash (parts.take (i + 1)) ++ [47])) <;> simp
        simp only [hrf, Bool.or_false, Bool.false_eq_true, if_false]
        rw [dget_ddel, dget_ddel]
        by_cases h1 : k = joinSlash (parts.take (i + 1)) <;>
          by_cases h2 : k = joinSlash (parts.take (i + 1)) ++ [47] <;>
            simp [h1, h2]

/-- `remove_entry(href, parents=True)` removes exactly the keys in
`keyInvalidatedBy href`. -/
theorem dget_remove_entry_true (c : CacheMap) (h k : Href) :
    dget (DavCache.remove_entry c h true) k
      = if keyInvalidatedBy h k = true then none else dget c k := by
  have hne : ¬ (true = false) := by decide
  unfold DavCache.remove_entry keyInvalidatedBy
  rw [if_neg hne]
  exact dget_foldl_ddel_pair _ _ _ _

/-! ### Inversion lemmas for `stat` -/

/-- Inverting a successful parse: the props come from the first entry. -/
theorem parseMultistatus_ok_inv (ms : Multistatus) (p : Props)
    (h : DavClient.parseMultistatus ms = .ok p) :
    ∃ e t, ms = e :: t ∧ p = DavClient.propsOfEntry e := by
  cases ms with
  | nil => simp [DavClient.parseMultistatus] at h
  | cons e t =>
      refine ⟨e, t, rfl, ?_⟩
      simp only [DavClient.parseMultistatus, Except.ok.injEq] at h
      exact h.symm

/-- Every successful `stat` returns the props derived from some
multistatus entry. -/
theorem stat_ok_inv (base : Href) (c : CacheMap) (now : Int)
    (resp : DavClient.PropfindResp) (href : Href) (props : Props)
    (h : (DavClient.stat base c now resp href).result = .ok props) :
    ∃ e, props = DavClient.propsOfEntry e := by
  unfold DavClient.stat at h
  dsimp only at h
  rcases hg : DavCache.get c (DavClient.fixhref base href) now with ⟨d, c'⟩
  rw [hg] at h
  cases d with
  | none =>
      simp only at h
      by_cases hs : resp.status ≠ 207
      · rw [if_pos hs] at h
        exact absurd h (by simp)
      · rw [if_neg hs] at h
        obtain ⟨e, t, _, he⟩ := parseMultistatus_ok_inv _ _ h
        exact ⟨e, he⟩
  | some dd =>
      cases dd with
      | none =>
          simp only at h
          exact absurd h (by simp)
      | some ms =>
          simp only at h
          obtain ⟨e, t, _, he⟩ := parseMultistatus_ok_inv _ _ h
          exact ⟨e, he⟩

end Dav

namespace Dav

/-! ### Case equations for `DavCache.get` and `DavClient.stat` -/

theorem DavCache.get_miss (c : CacheMap) (k : Href) (now : Int)
    (h : dget c k = none) : DavCache.get c k now = (none, c) := by
  unfold DavCache.get
  rw [h]

theorem DavCache.get_hit (c : CacheMap) (k : Href) (now : Int) (it : CacheItem)
    (h : dget c k = some it) (hx : it.expired now = false) :
    DavCache.get c k now = (some it.data, c) := by
  unfold DavCache.get
  rw [h]
  simp [hx]

theorem DavCache.get_expired (c : CacheMap) (k : Href) (now : Int) (it : CacheItem)
    (h : dget c k = some it) (hx : it.expired now = true) :
    DavCache.get c k now = (none, ddel c k) := by
  unfold DavCache.get
  rw [h]
  simp [hx]

/-- On a cache miss, `stat` issues the PROPFIND and branches on the
status. -/
theorem stat_miss_eq (base : Href) (c : CacheMap) (now : Int)
    (resp : DavClient.PropfindResp) (href : Href)
    (h : dget c (DavClient.fixhref base href) = none) :
    DavClient.stat base c now resp href =
      if resp.status ≠ 207 then
        ⟨DavCache.insert c (DavClient.fixhref base href) none STATCACHEDURATION now,
         .error (DavClient.error_from_status_code resp.status), true⟩
      else
        ⟨DavCache.insert c (DavClient.fixhref base href) (some resp.data) STATCACHEDURATION now,
         DavClient.parseMultistatus resp.data, true⟩ := by
  unfold DavClient.stat
  dsimp only
  rw [DavCache.get_miss c _ now h]

/-- A key's own full path is always in its invalidation set. -/
theorem keyInvalidatedBy_self (h : Href) : keyInvalidatedBy h h = true := by
  unfold keyInvalidatedBy
  rw [List.any_eq_true]
  have hpos : 0 < (splitSlash h).length := List.length_pos.mpr (splitSlash_ne_nil h)
  refine ⟨(splitSlash h).length - 1, ?_, ?_⟩
  · rw [List.mem_range]
    omega
  · rw [decide_eq_true_eq]
    left
    have hlen : (splitSlash h).length - 1 + 1 = (splitSlash h).length := by omega
    rw [hlen, List.take_length, joinSlash_splitSlash]

/-- A byte string whose last byte is a slash splits off that slash. -/
theorem exists_concat_of_getLast_slash (l : Href) (h : l.getLast? = some 47) :
    ∃ s, l = s ++ [47] := by
  cases l with
  | nil => simp at h
  | cons a t =>
      have hne : a :: t ≠ [] := by simp
      refine ⟨(a :: t).dropLast, ?_⟩
      have h2 := List.dropLast_concat_getLast hne
      have h3 : (a :: t).getLast hne = 47 := by
        rw [List.getLast?_eq_getLast _ hne] at h
        exact Option.some.inj h
      rw [← h3]
      exact h2.symm

end Dav

namespace Dav

/-- C5: the status mapping sends 403 to the permission-denied error
(`FuseOSError(EACCES)`), 404 to the not-found error
(`FuseOSError(ENOENT)`), and every other code to the generic transport
error carrying that code; every operation — `stat`, `delete`, `move`,
`list_files`, and the ranged GET of `read` — raises exactly this mapped
error when its request comes back with a non-success status. -/
theorem c5_status_mapping :
    DavClient.error_from_status_code 403 = .fuseOSError EACCES ∧
    DavClient.error_from_status_code 404 = .fuseOSError ENOENT ∧
    (∀ code : Nat, code ≠ 403 → code ≠ 404 →
      DavClient.error_from_status_code code = .httpError code) ∧
    (∀ (base : Href) (c : CacheMap) (now : Int) (resp : DavClient.PropfindResp)
        (href : Href),
      dget c (DavClient.fixhref base href) = none → resp.status ≠ 207 →
      (DavClient.stat base c now resp href).result
        = .error (DavClient.error_from_status_code resp.status)) ∧
    (∀ (base : Href) (c : CacheMap) (status : Nat) (href : Href), status ≠ 204 →
      (DavClient.delete base c status href).error
        = some (DavClient.error_from_status_code status)) ∧
    (∀ (base : Href) (c : CacheMap) (status : Nat) (src dest : Href), status ≠ 201 →
      (DavClient.move base c status src dest).error
        = some (DavClient.error_from_status_code status)) ∧
    (∀ (base : Href) (c : CacheMap) (now : Int) (resp : DavClient.PropfindResp)
        (href : Href),
      resp.status ≠ 207 →
      (DavClient.list_files base c now resp href).result
        = .error (DavClient.error_from_status_code resp.status)) ∧
    (∀ (base : Href) (c : CacheMap) (now : Int) (statResp : DavClient.PropfindResp)
        (getResp : DavClient.HttpResp) (href : Href) (start end_ : Int)
        (props : Props),
      (DavClient.stat base c now statResp href).result = .ok props →
      getResp.status ≠ 206 →
      (DavClient.read base c now statResp getResp href start end_).result
        = .error (DavClient.error_from_status_code getResp.status)) := by
  refine ⟨rfl, rfl, ?_, ?_, ?_, ?_, ?_, ?_⟩
  · intro code h3 h4
    unfold DavClient.error_from_status_code
    rw [if_neg h3, if_neg h4]
  · intro base c now resp href hmiss hs
    rw [stat_miss_eq base c now resp href hmiss, if_pos hs]
  · intro base c status href hs
    unfold DavClient.delete
    rw [if_pos hs]
  · intro base c status src dest hs
    unfold DavClient.move
    rw [if_pos hs]
  · intro base c now resp href hs
    unfold DavClient.list_files
    rw [if_pos hs]
  · intro base c now statResp getResp href start end_ props hstat hg
    unfold DavClient.read
    dsimp only
    rw [hstat]
    dsimp only
    rw [if_pos hg]

/-- C5 witness: a 500 response maps to the generic transport error
carrying 500, a failed delete with status 500 raises it, and a read
whose GET comes back 500 (after a successful stat) raises it too. -/
theorem c5_status_mapping_witness :
    DavClient.error_from_status_code 500 = .httpError 500 ∧
    (DavClient.delete [] [] 500 [47, 97]).error
      = some (DavClient.error_from_status_code 500) ∧
    (DavClient.read [] [] 0 ⟨207, [⟨[47, 102], 5, 0, false⟩]⟩ ⟨500, []⟩
        [47, 102] 0 3).result
      = .error (DavClient.error_from_status_code 500) :=
  ⟨c5_status_mapping.2.2.1 500 (by decide) (by decide),
   c5_status_mapping.2.2.2.2.1 [] [] 500 [47, 97] (by decide),
   c5_status_mapping.2.2.2.2.2.2.2 [] [] 0 ⟨207, [⟨[47, 102], 5, 0, false⟩]⟩
     ⟨500, []⟩ [47, 102] 0 3
     (DavClient.propsOfEntry ⟨[47, 102], 5, 0, false⟩) (by decide) (by decide)⟩

/-- C6: `DavCache.get` returns the cached body on a present, unexpired
entry; on a present but expired entry it deletes the entry and reports a
miss (`KeyError`); on an absent key it reports a miss; and after any
`get`, no expired entry for the key remains in the mapping. -/
theorem c6_cache_get (c : CacheMap) (k : Href) (now : Int) :
    (∀ it : CacheItem, dget c k = some it → it.expired now = false →
      DavCache.get c k now = (some it.data, c)) ∧
    (∀ it : CacheItem, dget c k = some it → it.expired now = true →
      DavCache.get c k now = (none, ddel c k)) ∧
    (dget c k = none → DavCache.get c k now = (none, c)) ∧
    (∀ it : CacheItem, dget (DavCache.get c k now).2 k = some it →
      it.expired now = false) := by
  refine ⟨DavCache.get_hit c k now, DavCache.get_expired c k now,
    DavCache.get_miss c k now, ?_⟩
  intro it h
  cases hk : dget c k with
  | none =>
      rw [DavCache.get_miss c k now hk] at h
      dsimp only at h
      rw [hk] at h
      exact absurd h (by simp)
  | some it0 =>
      cases hx : it0.expired now with
      | false =>
          rw [DavCache.get_hit c k now it0 hk hx] at h
          dsimp only at h
          rw [hk] at h
          cases Option.some.inj h
          exact hx
      | true =>
          rw [DavCache.get_expired c k now it0 hk hx] at h
          dsimp only at h
          rw [dget_ddel, if_pos rfl] at h
          exact absurd h (by simp)

/-- C6 witness: an expired entry is deleted by the read that discovers
its expiry. -/
theorem c6_cache_get_witness :
    DavCache.get [([107], ⟨some [], 3⟩)] [107] 5
      = (none, ddel [([107], ⟨some [], 3⟩)] [107]) :=
  (c6_cache_get [([107], ⟨some [], 3⟩)] [107] 5).2.1 ⟨some [], 3⟩ (by decide) (by decide)

/-- C8: when a delete or a move request comes back with a non-success
status, the operation raises the mapped error and the cache is left
exactly as it was. -/
theorem c8_mutation_failure (base : Href) (c : CacheMap) (status : Nat)
    (href src dest : Href) :
    (status ≠ 204 →
      (DavClient.delete base c status href).cache = c ∧
      (DavClient.delete base c status href).error
        = some (DavClient.error_from_status_code status)) ∧
    (status ≠ 201 →
      (DavClient.move base c status src dest).cache = c ∧
      (DavClient.move base c status src dest).error
        = some (DavClient.error_from_status_code status)) := by
  refine ⟨fun h => ?_, fun h => ?_⟩
  · unfold DavClient.delete
    rw [if_pos h]
    exact ⟨rfl, rfl⟩
  · unfold DavClient.move
    rw [if_pos h]
    exact ⟨rfl, rfl⟩

/-- C8 witness: a delete failing with 500 leaves a one-entry cache
untouched and raises the mapped error. -/
theorem c8_mutation_failure_witness :
    (DavClient.delete [] [([47, 97], ⟨none, 7⟩)] 500 [47, 97]).cache
        = [([47, 97], ⟨none, 7⟩)] ∧
    (DavClient.delete [] [([47, 97], ⟨none, 7⟩)] 500 [47, 97]).error
        = some (DavClient.error_from_status_code 500) :=
  (c8_mutation_failure [] [([47, 97], ⟨none, 7⟩)] 500 [47, 97] [47, 97] [47, 97]).1
    (by decide)

/-- C10: each operation accepts exactly one status as success — 207 for
`stat` and `list_files`, 204 for `delete`, 201 for `move`; any other
status (200 included) raises the mapped error, and a failing `stat`
additionally caches a negative entry with the standard TTL. -/
theorem c10_success_codes (base : Href) (c : CacheMap) (now : Int)
    (resp : DavClient.PropfindResp) (status : Nat) (href src dest : Href) :
    (dget c (DavClient.fixhref base href) = none →
      (DavClient.stat base c now resp href).issued = true ∧
      (resp.status ≠ 207 →
        (DavClient.stat base c now resp href).result
          = .error (DavClient.error_from_status_code resp.status) ∧
        dget (DavClient.stat base c now resp href).cache
            (DavClient.fixhref base href)
          = some ⟨none, now + STATCACHEDURATION⟩) ∧
      (resp.status = 207 →
        (DavClient.stat base c now resp href).result
          = DavClient.parseMultistatus resp.data ∧
        dget (DavClient.stat base c now resp href).cache
            (DavClient.fixhref base href)
          = some ⟨some resp.data, now + STATCACHEDURATION⟩)) ∧
    (status ≠ 204 → (DavClient.delete base c status href).error
        = some (DavClient.error_from_status_code status)) ∧
    (status = 204 → (DavClient.delete base c status href).error = none) ∧
    (status ≠ 201 → (DavClient.move base c status src dest).error
        = some (DavClient.error_from_status_code status)) ∧
    (status = 201 → (DavClient.move base c status src dest).error = none) ∧
    (resp.status ≠ 207 → (DavClient.list_files base c now resp href).result
        = .error (DavClient.error_from_status_code resp.status)) ∧
    (resp.status = 207 →
      ∃ ns, (DavClient.list_files base c now resp href).result = .ok ns) := by
  refine ⟨fun hmiss => ?_, fun h => ?_, fun h => ?_, fun h => ?_, fun h => ?_,
    fun h => ?_, fun h => ?_⟩
  · rw [stat_miss_eq base c now resp href hmiss]
    refine ⟨?_, fun hs => ?_, fun hs => ?_⟩
    · by_cases hs : resp.status ≠ 207 <;> simp [hs]
    · rw [if_pos hs]
      refine ⟨rfl, ?_⟩
      unfold DavCache.insert dinsert
      dsimp only [dget]
      rw [if_pos rfl]
    · rw [if_neg (fun hn => hn hs)]
      refine ⟨rfl, ?_⟩
      unfold DavCache.insert dinsert
      dsimp only [dget]
      rw [if_pos rfl]
  · unfold DavClient.delete
    rw [if_pos h]
  · unfold DavClient.delete
    rw [if_neg (fun hn => hn h)]
  · unfold DavClient.move
    rw [if_pos h]
  · unfold DavClient.move
    rw [if_neg (fun hn => hn h)]
  · unfold DavClient.list_files
    rw [if_pos h]
  · unfold DavClient.list_files
    rw [if_neg (fun hn => hn h)]
    exact ⟨_, rfl⟩

/-- C10 witness: a 200 response — a success code, but not the expected
one — makes `delete` fail, and a 200 PROPFIND makes a cache-missing
`stat` fail and cache a negative entry. -/
theorem c10_success_codes_witness :
    (DavClient.delete [] [] 200 [47, 97]).error
        = some (DavClient.error_from_status_code 200) ∧
    dget (DavClient.stat [] [] 0 ⟨200, []⟩ [47, 97]).cache
        (DavClient.fixhref [] [47, 97])
      = some ⟨none, 0 + STATCACHEDURATION⟩ :=
  ⟨(c10_success_codes [] [] 0 ⟨200, []⟩ 200 [47, 97] [47, 97] [47, 97]).2.1
      (by decide),
   (((c10_success_codes [] [] 0 ⟨200, []⟩ 200 [47, 97] [47, 97] [47, 97]).1
      (by decide)).2.1 (by decide)).2⟩

end Dav

namespace Dav

/-- C4: whenever the leading `stat` of a `read(href, start, end)`
succeeds, the issued byte range has lower bound `start` and upper bound
`min(end, st_size) - 1`; in particular with `end` beyond the size the
requested range is `[start, size-1]`. -/
theorem c4_range_clamp (base : Href) (c : CacheMap) (now : Int)
    (statResp : DavClient.PropfindResp) (getResp : DavClient.HttpResp)
    (href : Href) (start end_ : Int) (props : Props)
    (h : (DavClient.stat base c now statResp href).result = .ok props) :
    (DavClient.read base c now statResp getResp href start end_).rangeRequested
      = some (start, min end_ (props.st_size : Int) - 1) := by
  unfold DavClient.read
  dsimp only
  rw [h]
  dsimp only
  by_cases hlt : end_ < (props.st_size : Int)
  · rw [if_pos hlt, min_eq_left (le_of_lt hlt)]
    by_cases hg : getResp.status ≠ 206 <;> simp [hg]
  · rw [if_neg hlt, min_eq_right (le_of_not_lt hlt)]
    by_cases hg : getResp.status ≠ 206 <;> simp [hg]

/-- C4 witness: reading bytes `[0, 100)` of a 5-byte resource requests
the clamped range `[0, 4]`. -/
theorem c4_range_clamp_witness :
    (DavClient.read [] [] 0 ⟨207, [⟨[47, 102], 5, 0, false⟩]⟩ ⟨206, []⟩
        [47, 102] 0 100).rangeRequested
      = some (0, min 100
          ((DavClient.propsOfEntry ⟨[47, 102], 5, 0, false⟩).st_size : Int) - 1) :=
  c4_range_clamp [] [] 0 ⟨207, [⟨[47, 102], 5, 0, false⟩]⟩ ⟨206, []⟩ [47, 102]
    0 100 (DavClient.propsOfEntry ⟨[47, 102], 5, 0, false⟩) (by decide)

/-- C7: every successful `stat` returns props derived from a multistatus
entry: directory kind with mode `S_IFDIR | 0o500` when the resource-type
marker is non-empty, regular-file kind with `S_IFREG | 0o400` otherwise,
never any write bit; block size fixed at 1024; the modification time left
at zero although the entry carries one; and a block count equal to
`ceil(size / 512)` (characterized by the two inequalities). -/
theorem c7_props_derivation (base : Href) (c : CacheMap) (now : Int)
    (resp : DavClient.PropfindResp) (href : Href) (props : Props)
    (h : (DavClient.stat base c now resp href).result = .ok props) :
    ∃ e : DavEntry,
      props = DavClient.propsOfEntry e ∧
      props.st_mode
        = (if e.resourcetypeNonEmpty then S_IFDIR ||| 0o500 else S_IFREG ||| 0o400) ∧
      props.st_mode &&& 0o222 = 0 ∧
      props.st_blksize = 1024 ∧
      props.st_mtime = 0 ∧
      props.st_size = e.getcontentlength ∧
      props.st_size ≤ 512 * props.st_blocks ∧
      512 * props.st_blocks < props.st_size + 512 := by
  obtain ⟨e, he⟩ := stat_ok_inv base c now resp href props h
  subst he
  refine ⟨e, rfl, rfl, ?_, rfl, rfl, rfl, ?_, ?_⟩
  · cases hrt : e.resourcetypeNonEmpty <;>
      simp [DavClient.propsOfEntry, hrt] <;> decide
  · dsimp only [DavClient.propsOfEntry]
    omega
  · dsimp only [DavClient.propsOfEntry]
    omega

/-- C7 witness: a successful stat of a 1000-byte collection resource. -/
theorem c7_props_derivation_witness :
    ∃ e : DavEntry,
      DavClient.propsOfEntry ⟨[47, 102], 1000, 0, true⟩
          = DavClient.propsOfEntry e ∧
      (DavClient.propsOfEntry ⟨[47, 102], 1000, 0, true⟩).st_mode
        = (if e.resourcetypeNonEmpty then S_IFDIR ||| 0o500 else S_IFREG ||| 0o400) ∧
      (DavClient.propsOfEntry ⟨[47, 102], 1000, 0, true⟩).st_mode &&& 0o222 = 0 ∧
      (DavClient.propsOfEntry ⟨[47, 102], 1000, 0, true⟩).st_blksize = 1024 ∧
      (DavClient.propsOfEntry ⟨[47, 102], 1000, 0, true⟩).st_mtime = 0 ∧
      (DavClient.propsOfEntry ⟨[47, 102], 1000, 0, true⟩).st_size
          = e.getcontentlength ∧
      (DavClient.propsOfEntry ⟨[47, 102], 1000, 0, true⟩).st_size
          ≤ 512 * (DavClient.propsOfEntry ⟨[47, 102], 1000, 0, true⟩).st_blocks ∧
      512 * (DavClient.propsOfEntry ⟨[47, 102], 1000, 0, true⟩).st_blocks
          < (DavClient.propsOfEntry ⟨[47, 102], 1000, 0, true⟩).st_size + 512 :=
  c7_props_derivation [] [] 0 ⟨207, [⟨[47, 102], 1000, 0, true⟩]⟩ [47, 102]
    (DavClient.propsOfEntry ⟨[47, 102], 1000, 0, true⟩) (by decide)

/-- C2 (code bug): a first `stat` of `/p` answered 404 raises the mapped
not-found error and caches a body-less negative entry; a second `stat`
one second later issues no request but raises the fixed generic
invalid-status exception (the `#FIXME` branch), not the error associated
with the originally observed 404. -/
theorem c2_negative_cache_behavior :
    (DavClient.stat [] [] 0 ⟨404, []⟩ [47, 112]).result
        = .error (.fuseOSError ENOENT) ∧
    (DavClient.stat [] [] 0 ⟨404, []⟩ [47, 112]).issued = true ∧
    (DavClient.stat [] (DavClient.stat [] [] 0 ⟨404, []⟩ [47, 112]).cache 1
        ⟨207, []⟩ [47, 112]).issued = false ∧
    (DavClient.stat [] (DavClient.stat [] [] 0 ⟨404, []⟩ [47, 112]).cache 1
        ⟨207, []⟩ [47, 112]).result = .error .invalidStatus := by
  decide

end Dav

namespace Dav

/-- C9: the names yielded by `list_files` are all non-empty, and a
multistatus entry whose href ends in a slash — the directory's own entry
or any child collection — has an empty final decoded segment (so it is
skipped) while still being cached under its raw href. -/
theorem c9_list_names (base : Href) (c : CacheMap) (now : Int)
    (resp : DavClient.PropfindResp) (href : Href) (names : List Href)
    (h : (DavClient.list_files base c now resp href).result = .ok names) :
    (∀ nm ∈ names, nm ≠ []) ∧
    (∀ e ∈ resp.data, e.href.getLast? = some 47 →
      lastSegment (punquote e.href) = [] ∧
      dget (DavClient.list_files base c now resp href).cache e.href ≠ none) := by
  unfold DavClient.list_files at h ⊢
  dsimp only at h ⊢
  by_cases hs : resp.status ≠ 207
  · rw [if_pos hs] at h
    exact absurd h (by simp)
  · rw [if_neg hs] at h ⊢
    dsimp only at h ⊢
    have hn : names = resp.data.filterMap (fun e =>
        let nm := lastSegment (punquote e.href)
        if nm = [] then none else some nm) := (Except.ok.inj h).symm
    constructor
    · intro nm hnm
      rw [hn] at hnm
      obtain ⟨e, he, hfe⟩ := List.mem_filterMap.mp hnm
      dsimp only at hfe
      by_cases hz : lastSegment (punquote e.href) = []
      · rw [if_pos hz] at hfe
        exact absurd hfe (by simp)
      · rw [if_neg hz] at hfe
        rw [← Option.some.inj hfe]
        exact hz
    · intro e he htr
      obtain ⟨s, hs47⟩ := exists_concat_of_getLast_slash e.href htr
      refine ⟨?_, ?_⟩
      · rw [hs47, punquote_concat_slash, lastSegment_concat_slash]
      · obtain ⟨ms, hms⟩ :=
          dget_foldl_insert_of_mem resp.data c e.href now ⟨e, he, rfl⟩
        rw [hms]
        simp

/-- C9 witness: listing a directory whose response carries its own
trailing-slash entry and one plain child: the trailing-slash entry
decodes to an empty name yet is cached under its raw href. -/
theorem c9_list_names_witness :
    lastSegment (punquote [47, 100, 47]) = [] ∧
    dget (DavClient.list_files [] [] 0
        ⟨207, [⟨[47, 100, 47], 0, 0, true⟩, ⟨[47, 100, 47, 97], 3, 0, false⟩]⟩
        [47, 100]).cache [47, 100, 47] ≠ none :=
  (c9_list_names [] [] 0
      ⟨207, [⟨[47, 100, 47], 0, 0, true⟩, ⟨[47, 100, 47, 97], 3, 0, false⟩]⟩
      [47, 100] [[97]] (by decide)).2
    ⟨[47, 100, 47], 0, 0, true⟩ (by decide) (by decide)

/-- C1 (refuted as stated): `list_files` caches a child under the raw
server-reported href, not under the normalizer's output. Here the server
reports the child of `/d` as `/d//a`: the name `a` is enumerated, yet
the cache holds no entry under the key `stat("/d/a")` computes, and a
`stat` one second later — well within the TTL — issues a new request. -/
theorem c1_counterexample :
    (DavClient.list_files [] [] 0
        ⟨207, [⟨[47, 100, 47, 47, 97], 3, 0, false⟩]⟩ [47, 100]).result
      = .ok [[97]] ∧
    dget (DavClient.list_files [] [] 0
        ⟨207, [⟨[47, 100, 47, 47, 97], 3, 0, false⟩]⟩ [47, 100]).cache
        (DavClient.fixhref [] [47, 100, 47, 97]) = none ∧
    (DavClient.stat [] (DavClient.list_files [] [] 0
        ⟨207, [⟨[47, 100, 47, 47, 97], 3, 0, false⟩]⟩ [47, 100]).cache 1
        ⟨207, [⟨[47, 100, 47, 47, 97], 3, 0, false⟩]⟩ [47, 100, 47, 97]).issued
      = true := by
  decide

/-- C1 (amended): when the server-reported href of a listed entry equals
the key the path normalizer computes for the stat path, a `stat` within
the TTL window hits the listing-populated cache and issues no request. -/
theorem c1_listing_prepopulates (base : Href) (c : CacheMap) (t1 t2 : Int)
    (resp resp2 : DavClient.PropfindResp) (dirHref p : Href) (e : DavEntry)
    (hmem : e ∈ resp.data) (hkey : e.href = DavClient.fixhref base p)
    (hst : resp.status = 207) (hwin : t2 ≤ t1 + STATCACHEDURATION) :
    (DavClient.stat base (DavClient.list_files base c t1 resp dirHref).cache
        t2 resp2 p).issued = false := by
  unfold DavClient.list_files
  dsimp only
  rw [if_neg (fun hn => hn hst)]
  dsimp only
  obtain ⟨ms, hms⟩ := dget_foldl_insert_of_mem resp.data c
    (DavClient.fixhref base p) t1 ⟨e, hmem, hkey⟩
  have hx : (⟨some ms, t1 + STATCACHEDURATION⟩ : CacheItem).expired t2 = false := by
    simp only [CacheItem.expired, decide_eq_false_iff_not]
    omega
  unfold DavClient.stat
  dsimp only
  rw [DavCache.get_hit _ _ _ _ hms hx]

/-- C1 witness: with a canonical server href `/d/a` for the child of
`/d`, a `stat("/d/a")` five seconds after the listing issues no
request. -/
theorem c1_listing_prepopulates_witness :
    (DavClient.stat []
        (DavClient.list_files [] [] 0 ⟨207, [⟨[47, 100, 47, 97], 3, 0, false⟩]⟩
          [47, 100]).cache 5 ⟨207, []⟩ [47, 100, 47, 97]).issued = false :=
  c1_listing_prepopulates [] [] 0 5 ⟨207, [⟨[47, 100, 47, 97], 3, 0, false⟩]⟩
    ⟨207, []⟩ [47, 100] [47, 100, 47, 97] ⟨[47, 100, 47, 97], 3, 0, false⟩
    (by decide) (by decide) (by decide) (by decide)

/-- C3 (refuted as stated): `move` does not touch the destination's
cache entry. With a (negative) entry cached for the destination `/b`, a
successful `move("/a", "/b")` leaves that entry in place, so the
destination is not uncached after the move. -/
theorem c3_counterexample :
    (DavClient.move [] [(DavClient.fixhref [] [47, 98], ⟨none, 100⟩)] 201
        [47, 97] [47, 98]).error = none ∧
    dget (DavClient.move [] [(DavClient.fixhref [] [47, 98], ⟨none, 100⟩)] 201
        [47, 97] [47, 98]).cache (DavClient.fixhref [] [47, 98])
      = some ⟨none, 100⟩ := by
  decide

/-- C3 (amended): a successful delete removes every slash-prefix key of
the normalized path (both trailing-slash conventions), the normalized
path itself included; a successful move does the same for the source,
and never modifies the destination's entry — so the destination is
uncached after the move exactly when it was not cached before (and not
itself one of the source's removed prefix keys). -/
theorem c3_invalidation (base : Href) (c : CacheMap) (href src dest : Href) :
    (∀ k, keyInvalidatedBy (DavClient.fixhref base href) k = true →
      dget (DavClient.delete base c 204 href).cache k = none) ∧
    keyInvalidatedBy (DavClient.fixhref base href) (DavClient.fixhref base href)
      = true ∧
    (∀ k, keyInvalidatedBy (DavClient.fixhref base src) k = true →
      dget (DavClient.move base c 201 src dest).cache k = none) ∧
    (keyInvalidatedBy (DavClient.fixhref base src) (DavClient.fixhref base dest)
        = false →
      dget (DavClient.move base c 201 src dest).cache (DavClient.fixhref base dest)
        = dget c (DavClient.fixhref base dest)) := by
  refine ⟨?_, keyInvalidatedBy_self _, ?_, ?_⟩
  · intro k hk
    unfold DavClient.delete
    rw [if_neg (fun hn => hn rfl)]
    dsimp only
    rw [dget_remove_entry_true, if_pos hk]
  · intro k hk
    unfold DavClient.move
    rw [if_neg (fun hn => hn rfl)]
    dsimp only
    rw [dget_remove_entry_true, if_pos hk]
  · intro hk
    unfold DavClient.move
    rw [if_neg (fun hn => hn rfl)]
    dsimp only
    rw [dget_remove_entry_true]
    simp only [hk, Bool.false_eq_true, if_false]

/-- C3 witness: deleting `/a` removes its cached entry. -/
theorem c3_invalidation_witness :
    dget (DavClient.delete [] [([47, 97], ⟨none, 99⟩)] 204 [47, 97]).cache
        [47, 97] = none :=
  (c3_invalidation [] [([47, 97], ⟨none, 99⟩)] [47, 97] [47, 97] [47, 98]).1
    [47, 97] (by decide)

end Dav
